import Mathlib

/-!
Verification of the nvim-llm-request stdio backend (python sources under
`src/python/`): a line-delimited JSON broker between an editor plugin and
LLM providers.  We embed the request router (`main.py`), the configuration
resolver (`config.py`), the tool registry (`tools.py`) and the two provider
stream adapters (`providers/anthropic_client.py`,
`providers/openai_client.py`) as executable Lean functions and prove the
spec's claims about them.

Modelling conventions:
  - Python `str` is `String`; a possibly-absent dict entry is `Option`.
  - Python truthiness on strings (`if s:` — `None` and `""` falsy) is made
    explicit via `pyTruthy`.
  - `os.environ` is a function `String → Option String`.
  - `json.loads` of tool-argument text is an external library call; it is
    passed in as a parameter `loads : String → Option Args` (returning
    `none` exactly when the Python call raises `JSONDecodeError`).
  - Provider SDK streams arrive over the network; the wire events consumed
    by each adapter are modelled as inductive types mirroring exactly the
    attributes the adapter code inspects.
  - Generator functions become functions returning the list of yielded
    events; an exception raised mid-generator is modelled as an explicit
    `Option String` (the events yielded before the raise are kept, and
    `process_request` / `main` convert the raise into an error event).
-/

namespace NvimLlm

/-- A decoded structured argument value: model of a parsed JSON object
(the only JSON values the backend ever decodes are tool-call argument
objects).  `Args.obj []` is the empty object `{}`. -/
inductive Args
  | obj : List (String × String) → Args
  deriving DecidableEq

def Args.empty : Args := Args.obj []

/-- Canonical event vocabulary yielded by the backend
(`main.py` docstring: completion / thinking / tool_call / done / error). -/
inductive Ev
  | completion (content : String)
  | thinking (content : String)
  | toolCall (id name : String) (args : Args)
  | done
  | error (message : String)
  deriving DecidableEq

/-- The non-terminal payload events of a provider stream. -/
def isPayload : Ev → Bool
  | .completion _ => true
  | .thinking _ => true
  | .toolCall _ _ _ => true
  | .done => false
  | .error _ => false

/-- Whether the string `k` occurs as one of the string fields of an emitted
event (used to state that internally generated conversation keys never
appear in the output). -/
def evMentions (k : String) : Ev → Bool
  | .completion c => c == k
  | .thinking c => c == k
  | .toolCall i n (Args.obj fs) =>
      i == k || n == k || fs.any (fun p => p.1 == k || p.2 == k)
  | .done => false
  | .error m => m == k

/-! ## Tool registry (`tools.py`) -/

/-- One OpenAI-format tool descriptor, keeping the fields the code reads:
the `"type"` tag, the function name and description, and the parameter
schema's property names and required list. -/
structure OpenAITool where
  typeTag : String
  name : String
  description : String
  paramProperties : List String
  paramRequired : List String
  deriving DecidableEq

/-- One Anthropic-format tool descriptor (`parameters` renamed to
`input_schema`, function wrapper flattened). -/
structure AnthropicTool where
  name : String
  description : String
  inputProperties : List String
  inputRequired : List String
  deriving DecidableEq

/-- `tools.get_tool_definitions`: the static one-element catalogue. -/
def get_tool_definitions : List OpenAITool :=
  [⟨"function", "get_implementation",
    "Retrieve the full implementation of a function or class from the codebase.",
    ["function_name"], ["function_name"]⟩]

/-- `tools.convert_tools_for_anthropic`. -/
def convert_tools_for_anthropic (tools : List OpenAITool) : List AnthropicTool :=
  (tools.filter (fun t => t.typeTag == "function")).map
    (fun t => ⟨t.name, t.description, t.paramProperties, t.paramRequired⟩)

/-- The tool list as stored in a conversation: converted for Anthropic,
kept in OpenAI form otherwise. -/
inductive StoredTools
  | openaiForm (ts : List OpenAITool)
  | anthropicForm (ts : List AnthropicTool)
  deriving DecidableEq

/-! ## Configuration (`config.py`) -/

/-- The process environment: `os.getenv` without a default. -/
def Env : Type := String → Option String

/-- `os.getenv(key, default)`. -/
def getenvD (env : Env) (key dflt : String) : String := (env key).getD dflt

/-- Python truthiness on an optional string: `None` and `""` are falsy. -/
def pyTruthy : Option String → Option String
  | some s => if s = "" then none else some s
  | none => none

/-- Digit-string accumulator for `pyParseInt`. -/
def digitsToNatAux : Nat → List Char → Option Nat
  | acc, [] => some acc
  | acc, c :: rest =>
      if c.isDigit then digitsToNatAux (acc * 10 + (c.toNat - '0'.toNat)) rest
      else none

/-- A nonempty all-digit character list as a number. -/
def digitsToNat : List Char → Option Nat
  | [] => none
  | l => digitsToNatAux 0 l

/-- Model of Python `int(s)` on a decimal string (optional sign, then
digits; surrounding whitespace and underscore separators are out of
scope).  `none` models a raised `ValueError`. -/
def pyParseInt (s : String) : Option Int :=
  match s.data with
  | '-' :: rest => (digitsToNat rest).map (fun n => -(n : Int))
  | '+' :: rest => (digitsToNat rest).map (fun n => (n : Int))
  | l => (digitsToNat l).map (fun n => (n : Int))

/-- Model of Python `str.upper()` (ASCII case suffices here). -/
def pyUpper (s : String) : String := ⟨s.data.map Char.toUpper⟩

/-- The `Config` dataclass. -/
structure Config where
  provider : String
  model : String
  api_key : String
  base_url : Option String
  timeout : Int
  max_tool_calls : Int
  deriving DecidableEq

/-- A config dictionary as supplied in a request body (or `{}` for
`from_env`); `none` marks an absent key. -/
structure ConfigDict where
  provider : Option String
  model : Option String
  api_key : Option String
  base_url : Option String
  timeout : Option Int
  max_tool_calls : Option Int
  deriving DecidableEq

/-- The empty dictionary `{}`. -/
def ConfigDict.empty : ConfigDict := ⟨none, none, none, none, none, none⟩

/-- `Config._default_model`. -/
def Config.default_model (provider : String) : String :=
  if provider = "anthropic" then "claude-sonnet-4.5"
  else if provider = "openai" then "gpt-4"
  else if provider = "local" then "deepseek-coder:6.7b"
  else "claude-sonnet-4.5"

/-- `Config.from_dict`: dictionary-with-environment-fallback resolution.
`Except.error` models a raised `ValueError`.  Note that for `api_key` the
code consults the dictionary FIRST and the environment only as a fallback,
the opposite of what its own comment ("ALWAYS prefer env vars for
security, only use dict as fallback") announces. -/
def Config.from_dict (env : Env) (cd : ConfigDict) : Except String Config :=
  let provider := (pyTruthy cd.provider).getD (getenvD env "AI_REQUEST_PROVIDER" "anthropic")
  if provider ≠ "anthropic" ∧ provider ≠ "openai" ∧ provider ≠ "local" then
    .error ("Invalid provider '" ++ provider ++
      "'. Must be one of: ['anthropic', 'openai', 'local']")
  else
    let model :=
      match pyTruthy cd.model with
      | some m => m
      | none =>
        match pyTruthy (env "AI_REQUEST_MODEL") with
        | some m => m
        | none => Config.default_model provider
    match cd.timeout, pyParseInt (getenvD env "AI_REQUEST_TIMEOUT" "30") with
    | none, none => .error "invalid literal for int() with base 10 (AI_REQUEST_TIMEOUT)"
    | timeoutDict, timeoutEnv =>
      let timeout := timeoutDict.getD (timeoutEnv.getD 30)
      match cd.max_tool_calls, pyParseInt (getenvD env "AI_REQUEST_MAX_TOOL_CALLS" "3") with
      | none, none => .error "invalid literal for int() with base 10 (AI_REQUEST_MAX_TOOL_CALLS)"
      | mtcDict, mtcEnv =>
        let max_tool_calls := mtcDict.getD (mtcEnv.getD 3)
        let api_key_opt : Option String :=
          match pyTruthy cd.api_key with
          | some k => some k
          | none =>
            if provider = "anthropic" then env "ANTHROPIC_API_KEY"
            else if provider = "openai" then env "OPENAI_API_KEY"
            else if provider = "local" then some (getenvD env "AI_REQUEST_LOCAL_API_KEY" "none")
            else none
        if pyTruthy api_key_opt = none ∧ provider ≠ "local" then
          .error ("API key not found for provider '" ++ provider ++ "'. Set " ++
            pyUpper provider ++ "_API_KEY environment variable.")
        else
          let base_url :=
            match pyTruthy cd.base_url with
            | some _ => cd.base_url
            | none =>
              if provider = "local" then
                some (getenvD env "AI_REQUEST_LOCAL_URL" "http://localhost:11434/v1")
              else cd.base_url
          .ok ⟨provider, model, api_key_opt.getD "", base_url, timeout, max_tool_calls⟩

/-- `Config.from_env`: `from_dict({})`. -/
def Config.from_env (env : Env) : Except String Config :=
  Config.from_dict env ConfigDict.empty

/-- `Config(**config_dict)` as called by `handle_complete_request` in
`main.py`: the plain dataclass constructor.  It performs NO environment
fallback and no provider validation; missing required positional fields
(`provider`, `model`, `api_key`) raise `TypeError`, while the optional
fields default to `None` / `30` / `3`. -/
def configFromKwargs (cd : ConfigDict) : Except String Config :=
  match cd.provider, cd.model, cd.api_key with
  | some p, some m, some k =>
      .ok ⟨p, m, k, cd.base_url, cd.timeout.getD 30, cd.max_tool_calls.getD 3⟩
  | _, _, _ =>
      .error "Config.__init__() missing required positional arguments"

/-! ## Anthropic adapter (`providers/anthropic_client.py`) -/

/-- The delta payload of a `content_block_delta` wire event, distinguished
exactly as the code does by attribute presence: `text`, `thinking`, or
`type == 'input_json_delta'` with an optional `partial_json`. -/
inductive ADelta
  | textDelta (text : String)
  | thinkingDelta (thinking : String)
  | jsonDelta (fragment : Option String)
  | otherDelta
  deriving DecidableEq

/-- One Anthropic streaming wire event, with the attributes
`stream_completion` inspects: `content_block_start` carries
`some (id, name)` exactly when its `content_block.type == 'tool_use'`. -/
inductive AEvent
  | blockDelta (delta : ADelta)
  | blockStart (toolUse : Option (String × String))
  | blockStop
  | otherEvent
  deriving DecidableEq

/-- Loop state of `AnthropicClient.stream_completion`: `current_tool` and
`tool_input_json`. -/
structure AState where
  currentTool : Option (String × String)
  toolInputJson : String
  deriving DecidableEq

/-- `json.loads(s) if s else {}` with `JSONDecodeError` recovered to `{}`:
the argument-decoding idiom shared by both adapters.  `loads` models
`json.loads` restricted to the argument-object case (`none` = raise). -/
def decodePyLoads (loads : String → Option Args) (s : String) : Args :=
  if s = "" then Args.empty else (loads s).getD Args.empty

/-- One iteration of the `for event in stream` body of
`AnthropicClient.stream_completion`: next state plus yielded events. -/
def aStep (loads : String → Option Args) (st : AState) (e : AEvent) :
    AState × List Ev :=
  match e with
  | .blockDelta (.textDelta t) => (st, [Ev.completion t])
  | .blockDelta (.thinkingDelta t) => (st, [Ev.thinking t])
  | .blockDelta (.jsonDelta (some f)) =>
      (⟨st.currentTool, st.toolInputJson ++ f⟩, [])
  | .blockDelta (.jsonDelta none) => (st, [])
  | .blockDelta .otherDelta => (st, [])
  | .blockStart (some (i, n)) => (⟨some (i, n), ""⟩, [])
  | .blockStart none => (st, [])
  | .blockStop =>
      match st.currentTool with
      | some (i, n) =>
          (⟨none, ""⟩, [Ev.toolCall i n (decodePyLoads loads st.toolInputJson)])
      | none => (st, [])
  | .otherEvent => (st, [])

/-- The whole event loop of `AnthropicClient.stream_completion`. -/
def aRun (loads : String → Option Args) : AState → List AEvent → List Ev
  | _, [] => []
  | st, e :: rest =>
      let p := aStep loads st e
      p.2 ++ aRun loads p.1 rest

namespace AnthropicClient

/-- `AnthropicClient.stream_completion`, as a function of the wire events
the SDK stream delivers: the loop from the initial state, then the final
`yield {'type': 'done'}`. -/
def stream_completion (loads : String → Option Args) (events : List AEvent) :
    List Ev :=
  aRun loads ⟨none, ""⟩ events ++ [Ev.done]

end AnthropicClient

/-! ## OpenAI adapter (`providers/openai_client.py`) -/

/-- A `tool_call_chunk.function` object: optional `name` and `arguments`. -/
structure OFunctionChunk where
  name : Option String
  arguments : Option String
  deriving DecidableEq

/-- A streamed `tool_call_chunk`: `index`, optional `id`, optional
`function`. -/
structure OToolCallChunk where
  index : Nat
  id : Option String
  function : Option OFunctionChunk
  deriving DecidableEq

/-- A `chunk.choices[0].delta`: optional text `content` and optional
`tool_calls` list. -/
structure ODelta where
  content : Option String
  tool_calls : Option (List OToolCallChunk)
  deriving DecidableEq

/-- One OpenAI streaming chunk; `choices = none` models an empty
`chunk.choices` list (skipped by the code), otherwise the delta and the
`finish_reason`. -/
structure OChunk where
  choices : Option (ODelta × Option String)
  deriving DecidableEq

/-- One accumulated entry of the `tool_calls` dict:
`{'id': ..., 'name': ..., 'arguments': ...}`. -/
structure OAcc where
  id : String
  name : String
  arguments : String
  deriving DecidableEq

/-- Insertion-ordered model of the Python `tool_calls` dict keyed by chunk
index. -/
abbrev OState : Type := List (Nat × OAcc)

/-- Lookup in the index-keyed accumulator dict. -/
def oFind (k : Nat) : List (Nat × OAcc) → Option OAcc
  | [] => none
  | p :: rest => if p.1 = k then some p.2 else oFind k rest

/-- Processing of one `tool_call_chunk` inside the accumulation loop:
insert a fresh entry when the index is new (`id or ''`), then update
`id` / `name` (when truthy) and append `arguments` (when truthy). -/
def oProcessTcc (st : OState) (tcc : OToolCallChunk) : OState :=
  let st1 : OState :=
    match oFind tcc.index st with
    | some _ => st
    | none => st ++ [(tcc.index, ⟨(tcc.id.getD ""), "", ""⟩)]
  st1.map (fun p =>
    if p.1 = tcc.index then
      let acc := p.2
      let i :=
        match pyTruthy tcc.id with
        | some s => s
        | none => acc.id
      match tcc.function with
      | none => (p.1, OAcc.mk i acc.name acc.arguments)
      | some f =>
        let n :=
          match pyTruthy f.name with
          | some s => s
          | none => acc.name
        let a :=
          match pyTruthy f.arguments with
          | some s => acc.arguments ++ s
          | none => acc.arguments
        (p.1, OAcc.mk i n a)
    else p)

/-- One iteration of the `for chunk in stream` body of
`OpenAIClient.stream_completion`: text content first, then tool-call
accumulation, then (on `finish_reason == 'tool_calls'`) emission of every
accumulated call in dict insertion order. -/
def oStepChunk (loads : String → Option Args) (st : OState) (c : OChunk) :
    OState × List Ev :=
  match c.choices with
  | none => (st, [])
  | some (delta, finish) =>
    let evs1 :=
      match pyTruthy delta.content with
      | some s => [Ev.completion s]
      | none => []
    let st1 :=
      match delta.tool_calls with
      | some tccs => tccs.foldl oProcessTcc st
      | none => st
    let evs2 :=
      if finish = some "tool_calls" then
        st1.map (fun p =>
          Ev.toolCall p.2.id p.2.name (decodePyLoads loads p.2.arguments))
      else []
    (st1, evs1 ++ evs2)

/-- The whole chunk loop of `OpenAIClient.stream_completion`. -/
def oRun (loads : String → Option Args) : OState → List OChunk → List Ev
  | _, [] => []
  | st, c :: rest =>
      let p := oStepChunk loads st c
      p.2 ++ oRun loads p.1 rest

namespace OpenAIClient

/-- `OpenAIClient.stream_completion` as a function of the streamed chunks:
the loop from the empty accumulator, then the final `yield
{'type': 'done'}`. -/
def stream_completion (loads : String → Option Args) (chunks : List OChunk) :
    List Ev :=
  oRun loads [] chunks ++ [Ev.done]

end OpenAIClient

/-! ## Conversation store and request router (`main.py`) -/

/-- The client handle stored in a conversation (`AnthropicClient(...)` or
`OpenAIClient(...)`): determined by the constructor arguments taken from
the resolved config. -/
structure ClientHandle where
  api_key : String
  model : String
  base_url : Option String
  deriving DecidableEq

/-- One entry of the global `conversations` dict. -/
structure Conversation where
  config : Config
  client : ClientHandle
  tools : StoredTools
  is_anthropic : Bool
  user_message : String
  tool_calls : List Ev
  completion_parts : List String
  deriving DecidableEq

/-- The global `conversations` dict, as an insertion-ordered association
list keyed by `request_id`. -/
abbrev Store : Type := List (String × Conversation)

/-- Dict lookup. -/
def storeFind (k : String) : Store → Option Conversation
  | [] => none
  | p :: rest => if p.1 = k then some p.2 else storeFind k rest

/-- Dict assignment `conversations[k] = v`: replace in place if the key
exists, else append. -/
def storeInsert (store : Store) (k : String) (v : Conversation) : Store :=
  match storeFind k store with
  | some _ => store.map (fun p => if p.1 = k then (k, v) else p)
  | none => store ++ [(k, v)]

/-- `del conversations[k]` (guarded by `if k in conversations`, which a
filter subsumes): `cleanup_conversation`. -/
def cleanup_conversation (store : Store) (k : String) : Store :=
  store.filter (fun p => p.1 ≠ k)

/-- A `complete` request body (fields read by
`handle_complete_request`; `context` is mandatory there). -/
structure CompleteReq where
  request_id : Option String
  context : String
  prompt : Option String
  config : Option ConfigDict
  deriving DecidableEq

/-- A `tool_response` request body. -/
structure ToolResponseReq where
  request_id : Option String
  tool_call_id : Option String
  content : Option String
  deriving DecidableEq

/-- How Python string-formats the optional ids it interpolates into
messages (`None` prints as `"None"`). -/
def pyStrOpt : Option String → String
  | none => "None"
  | some s => s

/-- The config resolution performed at the top of
`handle_complete_request`: the dataclass constructor on the body dict when
`'config' in request`, else `Config.from_env()`. -/
def resolveRequestConfig (env : Env) (req : CompleteReq) : Except String Config :=
  match req.config with
  | some cd => configFromKwargs cd
  | none => Config.from_env env

/-- `user_message = context (+ "\n\n" + prompt if prompt truthy)`. -/
def buildUserMessage (req : CompleteReq) : String :=
  match pyTruthy req.prompt with
  | some p => req.context ++ "\n\n" ++ p
  | none => req.context

/-- The per-event store update inside the streaming loop of
`handle_complete_request`: `tool_call` events are appended to the
conversation's `tool_calls`, `completion` contents to its
`completion_parts`; every event is forwarded unchanged. -/
def applyStreamEvent (store : Store) (rid : String) (e : Ev) : Store :=
  match storeFind rid store with
  | none => store
  | some conv =>
    match e with
    | Ev.toolCall _ _ _ =>
        storeInsert store rid
          ⟨conv.config, conv.client, conv.tools, conv.is_anthropic,
           conv.user_message, conv.tool_calls ++ [e], conv.completion_parts⟩
    | Ev.completion c =>
        storeInsert store rid
          ⟨conv.config, conv.client, conv.tools, conv.is_anthropic,
           conv.user_message, conv.tool_calls, conv.completion_parts ++ [c]⟩
    | _ => store

/-- `handle_complete_request`, with the enclosing `try/except` of
`process_request` folded in (a raised exception becomes one trailing
error event and leaves the store as it was at the raise).

Network-delivered data is parameterized: `streamEvents` are the canonical
events the constructed client's `stream_completion` yields, and
`streamRaise = some msg` models the provider stream raising after those
yields (`none` = clean termination).  `genKey` is `str(id(request))`, the
internally generated key used when the body has no `request_id`. -/
def handle_complete_request (env : Env) (req : CompleteReq)
    (streamEvents : List Ev) (streamRaise : Option String) (genKey : String)
    (store : Store) : List Ev × Store :=
  match resolveRequestConfig env req with
  | .error msg => ([Ev.error msg], store)
  | .ok config =>
    let is_anthropic := config.provider = "anthropic"
    if ¬ is_anthropic ∧ config.provider ≠ "openai" ∧ config.provider ≠ "local" then
      ([Ev.error ("Unknown provider: " ++ config.provider)], store)
    else
      let tools : StoredTools :=
        if is_anthropic then .anthropicForm (convert_tools_for_anthropic get_tool_definitions)
        else .openaiForm get_tool_definitions
      let client : ClientHandle :=
        if is_anthropic then ⟨config.api_key, config.model, none⟩
        else ⟨config.api_key, config.model, config.base_url⟩
      let user_message := buildUserMessage req
      let request_id := req.request_id.getD genKey
      let conv : Conversation :=
        ⟨config, client, tools, is_anthropic, user_message, [], []⟩
      let store1 := storeInsert store request_id conv
      let store2 := streamEvents.foldl (fun s e => applyStreamEvent s request_id e) store1
      let raiseTail :=
        match streamRaise with
        | some msg => [Ev.error msg]
        | none => []
      (streamEvents ++ raiseTail, store2)

/-- The outcome of the provider network stream consumed by
`continue_anthropic_conversation` / `continue_openai_conversation`.  Both
functions forward only text deltas as `completion` events and append one
`done` on clean termination; `failure` models the SDK stream raising after
some deltas were already yielded. -/
inductive ContResult
  | success (completions : List String)
  | failure (completions : List String) (message : String)
  deriving DecidableEq

/-- `tc.get('id') == tool_call_id` over the stored `tool_calls` events:
the linear search in `handle_tool_response` (a stored event's string id
never equals a missing (`None`) `tool_call_id`). -/
def findToolCall (calls : List Ev) (tool_call_id : Option String) : Option Ev :=
  calls.find? (fun tc =>
    match tc, tool_call_id with
    | Ev.toolCall i _ _, some t => i == t
    | _, _ => false)

/-- `handle_tool_response`.  Returns the yielded events, the store after
the handler, and `some msg` when an exception escaped the handler (raised
by the continuation stream; `process_request` turns it into an error
event).  Note the early `return` on a missing tool call and the
exception path both skip the `cleanup_conversation` call. -/
def handle_tool_response (store : Store) (req : ToolResponseReq)
    (cont : ContResult) : List Ev × Store × Option String :=
  match pyTruthy req.request_id with
  | none => ([Ev.error "Invalid or expired request_id"], store, none)
  | some rid =>
    match storeFind rid store with
    | none => ([Ev.error "Invalid or expired request_id"], store, none)
    | some conv =>
      match findToolCall conv.tool_calls req.tool_call_id with
      | none =>
          ([Ev.error ("Tool call " ++ pyStrOpt req.tool_call_id ++ " not found")],
           store, none)
      | some _ =>
        match cont with
        | .success cs =>
            (cs.map Ev.completion ++ [Ev.done], cleanup_conversation store rid, none)
        | .failure cs msg =>
            (cs.map Ev.completion, store, some msg)

/-- An inbound request after JSON parsing: the tagged union dispatched by
`process_request` (`unknownType` carries `request.get('type')`). -/
inductive Request
  | complete (r : CompleteReq)
  | toolResponse (r : ToolResponseReq)
  | unknownType (tag : Option String)
  deriving DecidableEq

/-- The network/environment inputs one request consumes: the initial
provider stream (for `complete`), the continuation stream (for
`tool_response`), and the internally generated key `str(id(request))`. -/
structure Oracle where
  streamEvents : List Ev
  streamRaise : Option String
  cont : ContResult
  genKey : String

/-- `process_request`: dispatch plus the outermost `try/except` that
converts any exception into a single error event. -/
def process_request (env : Env) (store : Store) (req : Request) (o : Oracle) :
    List Ev × Store :=
  match req with
  | .complete r =>
      handle_complete_request env r o.streamEvents o.streamRaise o.genKey store
  | .toolResponse r =>
      let res := handle_tool_response store r o.cont
      let raiseTail :=
        match res.2.2 with
        | some msg => [Ev.error msg]
        | none => []
      (res.1 ++ raiseTail, res.2.1)
  | .unknownType t =>
      ([Ev.error ("Unknown request type: " ++ pyStrOpt t)], store)

/-- One input line of the transport loop: either text that fails
`json.loads` (with the exception detail), or a parsed request together
with the external inputs its processing consumes. -/
inductive InLine
  | invalidJson (detail : String)
  | request (req : Request) (o : Oracle)

/-- The `main()` stdio loop over a list of input lines, threading the
`conversations` store: a `json.JSONDecodeError` line yields one
`"Invalid JSON: <detail>"` error event and the loop continues; every
event of a processed request is printed in order. -/
def mainLoopSt (env : Env) : Store → List InLine → List Ev × Store
  | store, [] => ([], store)
  | store, .invalidJson d :: rest =>
      let res := mainLoopSt env store rest
      (Ev.error ("Invalid JSON: " ++ d) :: res.1, res.2)
  | store, .request r o :: rest =>
      let p := process_request env store r o
      let res := mainLoopSt env p.2 rest
      (p.1 ++ res.1, res.2)

/-! ## Derived notions used in the statements -/

/-- Is this event a `tool_call`? -/
def isToolCallEv : Ev → Bool
  | .toolCall _ _ _ => true
  | _ => false

/-- The content of a `completion` event. -/
def complContent : Ev → Option String
  | .completion c => some c
  | _ => none

/-- Does this event carry the given tool-call id? -/
def toolCallHasId (t : String) : Ev → Bool
  | .toolCall i _ _ => i == t
  | _ => false

/-- Concatenation of the streamed argument fragments. -/
def strConcat : List String → String
  | [] => ""
  | s :: rest => s ++ strConcat rest

/-- The providers the router can dispatch to. -/
def knownProvider (cfg : Config) : Prop :=
  cfg.provider = "anthropic" ∨ cfg.provider = "openai" ∨ cfg.provider = "local"

/-- The per-event conversation update the streaming loop of
`handle_complete_request` performs on the stored entry. -/
def convStep (conv : Conversation) (e : Ev) : Conversation :=
  match e with
  | Ev.toolCall _ _ _ =>
      ⟨conv.config, conv.client, conv.tools, conv.is_anthropic,
       conv.user_message, conv.tool_calls ++ [e], conv.completion_parts⟩
  | Ev.completion c =>
      ⟨conv.config, conv.client, conv.tools, conv.is_anthropic,
       conv.user_message, conv.tool_calls, conv.completion_parts ++ [c]⟩
  | _ => conv

/-- An OpenAI chunk carrying one tool-call fragment for call index 0. -/
def oToolChunk (i nm arg : Option String) : OChunk :=
  ⟨some (⟨none, some [⟨0, i, some ⟨nm, arg⟩⟩]⟩, none)⟩

/-- The final OpenAI chunk signalling `finish_reason == 'tool_calls'`. -/
def oFinishChunk : OChunk := ⟨some (⟨none, none⟩, some "tool_calls")⟩

/-- The tool list `handle_complete_request` stores for a resolved config. -/
def toolsOf (cfg : Config) : StoredTools :=
  if cfg.provider = "anthropic" then
    .anthropicForm (convert_tools_for_anthropic get_tool_definitions)
  else .openaiForm get_tool_definitions

/-- The client handle `handle_complete_request` constructs. -/
def clientOf (cfg : Config) : ClientHandle :=
  if cfg.provider = "anthropic" then ⟨cfg.api_key, cfg.model, none⟩
  else ⟨cfg.api_key, cfg.model, cfg.base_url⟩

/-- The fresh conversation `handle_complete_request` stores before
streaming. -/
def initConv (cfg : Config) (req : CompleteReq) : Conversation :=
  ⟨cfg, clientOf cfg, toolsOf cfg, cfg.provider = "anthropic",
   buildUserMessage req, [], []⟩

/-! ## Concrete instances used in witnesses and counterexamples -/

/-- An empty environment. -/
def envNone : Env := fun _ => none

/-- An environment with only `ANTHROPIC_API_KEY=sk-X` set. -/
def envSkX : Env :=
  fun k => if k = "ANTHROPIC_API_KEY" then some "sk-X" else none

/-- A body config that supplies an `api_key` of its own. -/
def cdBodyKey : ConfigDict :=
  ⟨some "anthropic", some "claude-sonnet-4.5", some "body-key", none, none, none⟩

/-- A complete request carrying `cdBodyKey`. -/
def reqBodyKey : CompleteReq := ⟨some "r1", "ctx", none, some cdBodyKey⟩

/-- A body config naming only the provider, as the spec's local-provider
scenario does. -/
def cdLocalOnly : ConfigDict := ⟨some "local", none, none, none, none, none⟩

/-- A complete request carrying `cdLocalOnly`. -/
def reqLocalOnly : CompleteReq :=
  ⟨none, "def f():\n# TODO", some "implement it", some cdLocalOnly⟩

/-- A fully-specified OpenAI body config. -/
def cdOpenai : ConfigDict :=
  ⟨some "openai", some "gpt-4", some "k", none, none, none⟩

/-- The config `cdOpenai` resolves to. -/
def cfgOpenai : Config := ⟨"openai", "gpt-4", "k", none, 30, 3⟩

/-- A complete request without `request_id`, carrying `cdOpenai`. -/
def reqOpenai : CompleteReq :=
  ⟨none, "def f():\n# TODO", some "implement it", some cdOpenai⟩

/-- A complete request under key `r1`, carrying `cdOpenai`. -/
def reqReplace : CompleteReq := ⟨some "r1", "ctx2", none, some cdOpenai⟩

/-- A stored conversation awaiting the result of tool call `t1`. -/
def convPending : Conversation :=
  ⟨cfgOpenai, ⟨"k", "gpt-4", none⟩, .openaiForm get_tool_definitions, false,
   "msg", [Ev.toolCall "t1" "get_implementation" Args.empty], []⟩

/-- A store holding `convPending` under key `r1`. -/
def storePending : Store := [("r1", convPending)]

/-- A concrete decoder recognising exactly the fragment concatenation
`"ab"`. -/
def loadsAB : String → Option Args :=
  fun s => if s = "ab" then some (Args.obj [("function_name", "foo")]) else none

/-! ## Helper lemmas -/

theorem strAppend_assoc (a b c : String) : a ++ b ++ c = a ++ (b ++ c) := by
  apply String.ext
  simp [List.append_assoc]

theorem strAppend_empty (a : String) : a ++ "" = a := String.append_empty a

theorem storeFind_map_repl (k : String) (v : Conversation) (store : Store) :
    storeFind k (store.map (fun p => if p.1 = k then (k, v) else p))
      = (storeFind k store).map (fun _ => v) := by
  induction store with
  | nil => rfl
  | cons p rest ih =>
    by_cases h : p.1 = k
    · simp [storeFind, h]
    · simp [storeFind, h, ih]

theorem storeFind_append_of_none (k : String) (s t : Store)
    (h : storeFind k s = none) : storeFind k (s ++ t) = storeFind k t := by
  induction s with
  | nil => rfl
  | cons p rest ih =>
    by_cases hp : p.1 = k
    · simp [storeFind, hp] at h
    · simp [storeFind, hp] at h ⊢
      exact ih h

theorem storeFind_insert_self (store : Store) (k : String) (v : Conversation) :
    storeFind k (storeInsert store k v) = some v := by
  unfold storeInsert
  cases h : storeFind k store with
  | some w => simp [storeFind_map_repl, h]
  | none => simp [storeFind_append_of_none k store _ h, storeFind]

theorem storeFind_map_repl_ne (k k' : String) (v : Conversation) (store : Store)
    (hne : k' ≠ k) :
    storeFind k' (store.map (fun p => if p.1 = k then (k, v) else p))
      = storeFind k' store := by
  induction store with
  | nil => rfl
  | cons p rest ih =>
    by_cases hp : p.1 = k
    · simp [storeFind, hp, Ne.symm hne, ih]
    · simp [storeFind, hp, ih]

theorem storeFind_append (k : String) (s t : Store) :
    storeFind k (s ++ t) = (storeFind k s).orElse (fun _ => storeFind k t) := by
  induction s with
  | nil => rfl
  | cons p rest ih =>
    by_cases hp : p.1 = k
    · simp [storeFind, hp]
    · simp [storeFind, hp, ih]

theorem storeFind_insert_ne (store : Store) (k k' : String) (v : Conversation)
    (hne : k' ≠ k) : storeFind k' (storeInsert store k v) = storeFind k' store := by
  unfold storeInsert
  cases h : storeFind k store with
  | some w => exact storeFind_map_repl_ne k k' v store hne
  | none =>
    rw [storeFind_append]
    simp [storeFind, Ne.symm hne]

theorem storeFind_cleanup_self (store : Store) (k : String) :
    storeFind k (cleanup_conversation store k) = none := by
  induction store with
  | nil => rfl
  | cons p rest ih =>
    by_cases hp : p.1 = k
    · simpa [cleanup_conversation, hp] using ih
    · simpa [cleanup_conversation, storeFind, hp] using ih

theorem storeFind_cleanup_ne (store : Store) (k k' : String) (hne : k' ≠ k) :
    storeFind k' (cleanup_conversation store k) = storeFind k' store := by
  induction store with
  | nil => rfl
  | cons p rest ih =>
    by_cases hp : p.1 = k
    · simpa [cleanup_conversation, List.filter_cons, storeFind, hp, Ne.symm hne] using ih
    · by_cases hp' : p.1 = k'
      · simp [cleanup_conversation, List.filter_cons, storeFind, hp, hp', hne]
      · simpa [cleanup_conversation, List.filter_cons, storeFind, hp, hp'] using ih

theorem applyStreamEvent_find_self (store : Store) (rid : String) (e : Ev)
    (conv : Conversation) (h : storeFind rid store = some conv) :
    storeFind rid (applyStreamEvent store rid e) = some (convStep conv e) := by
  unfold applyStreamEvent
  rw [h]
  cases e <;> simp [convStep, storeFind_insert_self, h]

theorem applyStreamEvent_find_ne (store : Store) (rid k : String) (e : Ev)
    (hne : k ≠ rid) :
    storeFind k (applyStreamEvent store rid e) = storeFind k store := by
  unfold applyStreamEvent
  cases hf : storeFind rid store with
  | none => rfl
  | some conv => cases e <;> simp [storeFind_insert_ne _ _ _ _ hne]

theorem foldStream_find_self (rid : String) (evs : List Ev) :
    ∀ (store : Store) (conv : Conversation), storeFind rid store = some conv →
    storeFind rid (evs.foldl (fun s e => applyStreamEvent s rid e) store)
      = some (evs.foldl convStep conv) := by
  induction evs with
  | nil => intro store conv h; simpa using h
  | cons e rest ih =>
    intro store conv h
    simp only [List.foldl_cons]
    exact ih _ _ (applyStreamEvent_find_self store rid e conv h)

theorem foldStream_find_ne (rid k : String) (evs : List Ev) (hne : k ≠ rid) :
    ∀ store : Store,
    storeFind k (evs.foldl (fun s e => applyStreamEvent s rid e) store)
      = storeFind k store := by
  induction evs with
  | nil => intro store; rfl
  | cons e rest ih =>
    intro store
    simp only [List.foldl_cons]
    rw [ih, applyStreamEvent_find_ne _ _ _ _ hne]

theorem foldl_convStep_spec (evs : List Ev) : ∀ conv : Conversation,
    (evs.foldl convStep conv).tool_calls
        = conv.tool_calls ++ evs.filter isToolCallEv
    ∧ (evs.foldl convStep conv).completion_parts
        = conv.completion_parts ++ evs.filterMap complContent
    ∧ (evs.foldl convStep conv).config = conv.config
    ∧ (evs.foldl convStep conv).is_anthropic = conv.is_anthropic
    ∧ (evs.foldl convStep conv).user_message = conv.user_message := by
  induction evs with
  | nil => intro conv; simp
  | cons e rest ih =>
    intro conv
    have h := ih (convStep conv e)
    cases e <;>
      simpa [convStep, isToolCallEv, complContent, List.filter_cons,
        List.filterMap_cons] using h

theorem aStep_all_payload (loads : String → Option Args) (st : AState) (e : AEvent) :
    ((aStep loads st e).2).all isPayload = true := by
  cases e with
  | blockDelta d =>
    cases d with
    | jsonDelta f => cases f <;> simp [aStep, isPayload]
    | _ => simp [aStep, isPayload]
  | blockStart t => cases t <;> simp [aStep]
  | blockStop =>
    cases h : st.currentTool with
    | none => simp [aStep, h]
    | some p => simp [aStep, h, isPayload]
  | otherEvent => simp [aStep]

theorem aRun_all_payload (loads : String → Option Args) (evs : List AEvent) :
    ∀ st : AState, (aRun loads st evs).all isPayload = true := by
  induction evs with
  | nil => intro st; rfl
  | cons e rest ih =>
    intro st
    simp only [aRun, List.all_append, Bool.and_eq_true]
    exact And.intro (aStep_all_payload loads st e) (ih _)

theorem all_map_toolCalls (loads : String → Option Args) (l : OState) :
    (l.map (fun p =>
      Ev.toolCall p.2.id p.2.name (decodePyLoads loads p.2.arguments))).all isPayload
      = true := by
  induction l with
  | nil => rfl
  | cons p rest ih => simp [isPayload, ih]

theorem oStepChunk_all_payload (loads : String → Option Args) (st : OState)
    (c : OChunk) : ((oStepChunk loads st c).2).all isPayload = true := by
  unfold oStepChunk
  cases c.choices with
  | none => rfl
  | some pr =>
    cases pr with
    | mk delta finish =>
      simp only [List.all_append, Bool.and_eq_true]
      constructor
      · cases h : pyTruthy delta.content <;> simp [isPayload]
      · by_cases hf : finish = some "tool_calls"
        · simp only [hf, if_pos]
          exact all_map_toolCalls loads _
        · simp [hf]

theorem oRun_all_payload (loads : String → Option Args) (chunks : List OChunk) :
    ∀ st : OState, (oRun loads st chunks).all isPayload = true := by
  induction chunks with
  | nil => intro st; rfl
  | cons c rest ih =>
    intro st
    simp only [oRun, List.all_append, Bool.and_eq_true]
    exact And.intro (oStepChunk_all_payload loads st c) (ih _)

theorem count_done_eq_zero_of_payload (evs : List Ev)
    (h : evs.all isPayload = true) : evs.count Ev.done = 0 := by
  rw [List.count_eq_zero]
  intro hmem
  have := List.all_eq_true.mp h _ hmem
  simp [isPayload] at this

/-- Processing the streamed argument fragments of one Anthropic tool-use
block just appends their concatenation to the accumulator. -/
theorem aRun_jsonFrags (loads : String → Option Args) (frags : List String) :
    ∀ (ct : Option (String × String)) (acc : String) (rest : List AEvent),
    aRun loads ⟨ct, acc⟩
        (frags.map (fun f => AEvent.blockDelta (ADelta.jsonDelta (some f))) ++ rest)
      = aRun loads ⟨ct, acc ++ strConcat frags⟩ rest := by
  induction frags with
  | nil => intro ct acc rest; simp [strConcat, strAppend_empty]
  | cons f fr ih =>
    intro ct acc rest
    simp only [List.map_cons, List.cons_append, aRun, aStep, List.nil_append,
      List.append_eq]
    rw [ih, strConcat, ← strAppend_assoc]

/-- The Anthropic adapter on one complete tool-use block: exactly one
`tool_call` event, with the accumulated fragments decoded. -/
theorem anthropic_tool_block (loads : String → Option Args)
    (i n : String) (frags : List String) :
    AnthropicClient.stream_completion loads
        (AEvent.blockStart (some (i, n))
          :: frags.map (fun f => AEvent.blockDelta (ADelta.jsonDelta (some f)))
          ++ [AEvent.blockStop])
      = [Ev.toolCall i n (decodePyLoads loads (strConcat frags)), Ev.done] := by
  unfold AnthropicClient.stream_completion
  simp only [List.cons_append, aRun, aStep, List.nil_append, List.append_eq]
  rw [aRun_jsonFrags]
  simp [aRun, aStep, strConcat]

/-- One argument-fragment chunk appends the fragment to the accumulated
`arguments` of the call at index 0 and yields nothing. -/
theorem oStep_frag (loads : String → Option Args) (f i n acc : String) :
    oStepChunk loads [(0, ⟨i, n, acc⟩)] (oToolChunk none none (some f))
      = ([(0, ⟨i, n, acc ++ f⟩)], []) := by
  by_cases hf : f = ""
  · simp [oStepChunk, oToolChunk, oProcessTcc, oFind, pyTruthy, hf, strAppend_empty]
  · simp [oStepChunk, oToolChunk, oProcessTcc, oFind, pyTruthy, hf]

/-- Processing the streamed argument fragments of one OpenAI tool call
just appends their concatenation to the accumulated `arguments`. -/
theorem oRun_argFrags (loads : String → Option Args) (frags : List String) :
    ∀ (i n acc : String) (rest : List OChunk),
    oRun loads [(0, ⟨i, n, acc⟩)]
        (frags.map (fun f => oToolChunk none none (some f)) ++ rest)
      = oRun loads [(0, ⟨i, n, acc ++ strConcat frags⟩)] rest := by
  induction frags with
  | nil => intro i n acc rest; simp [strConcat, strAppend_empty]
  | cons f fr ih =>
    intro i n acc rest
    simp only [List.map_cons, List.cons_append, oRun, oStep_frag, List.nil_append,
      List.append_eq]
    rw [ih]
    simp only [strConcat]
    rw [← strAppend_assoc]

/-- The initial chunk carrying the call's id and name creates the
accumulator entry. -/
theorem oStep_head (loads : String → Option Args) (i n : String)
    (hi : i ≠ "") (hn : n ≠ "") :
    oStepChunk loads [] (oToolChunk (some i) (some n) none)
      = ([(0, ⟨i, n, ""⟩)], []) := by
  simp [oStepChunk, oToolChunk, oProcessTcc, oFind, pyTruthy, hi, hn]

/-- The `finish_reason == 'tool_calls'` chunk emits every accumulated call
in insertion order and leaves the accumulator unchanged. -/
theorem oStep_finish (loads : String → Option Args) (st : OState) :
    oStepChunk loads st oFinishChunk
      = (st, st.map (fun p =>
          Ev.toolCall p.2.id p.2.name (decodePyLoads loads p.2.arguments))) := by
  simp [oStepChunk, oFinishChunk, pyTruthy]

/-- The OpenAI adapter on one complete tool call (id/name chunk, argument
fragments, finish chunk): exactly one `tool_call` event with the
accumulated fragments decoded, then `done`. -/
theorem openai_tool_stream (loads : String → Option Args) (i n : String)
    (frags : List String) (hi : i ≠ "") (hn : n ≠ "") :
    OpenAIClient.stream_completion loads
        (oToolChunk (some i) (some n) none
          :: frags.map (fun f => oToolChunk none none (some f))
          ++ [oFinishChunk])
      = [Ev.toolCall i n (decodePyLoads loads (strConcat frags)), Ev.done] := by
  unfold OpenAIClient.stream_completion
  simp only [List.cons_append, oRun, oStep_head loads i n hi hn, List.nil_append,
    List.append_eq]
  rw [oRun_argFrags]
  simp only [oRun, oStep_finish, List.map, String.empty_append]
  rfl

/-- `handle_complete_request` on a resolvable config with a known
provider: output is the forwarded stream (plus the converted raise), and
the store is the fresh conversation under the request's key, updated by
the streaming loop. -/
theorem handle_complete_ok (env : Env) (req : CompleteReq) (evs : List Ev)
    (sr : Option String) (gk : String) (store : Store) (cfg : Config)
    (hcfg : resolveRequestConfig env req = .ok cfg) (hkp : knownProvider cfg) :
    handle_complete_request env req evs sr gk store
      = (evs ++ (match sr with | some m => [Ev.error m] | none => []),
         evs.foldl (fun s e => applyStreamEvent s (req.request_id.getD gk) e)
           (storeInsert store (req.request_id.getD gk) (initConv cfg req))) := by
  have hguard : ¬(¬(cfg.provider = "anthropic") ∧ cfg.provider ≠ "openai"
      ∧ cfg.provider ≠ "local") := by
    rcases hkp with h | h | h <;> simp [h]
  unfold handle_complete_request
  rw [hcfg]
  dsimp only
  rw [if_neg hguard]
  rfl

/-- A `tool_response` whose `request_id` is missing, empty, or not a key
of the store: one invalid-id error, no state change, no raise. -/
theorem tool_response_unknown (store : Store) (req : ToolResponseReq)
    (cont : ContResult)
    (h : ∀ rid, req.request_id = some rid → storeFind rid store = none) :
    handle_tool_response store req cont
      = ([Ev.error "Invalid or expired request_id"], store, none) := by
  unfold handle_tool_response
  cases hr : req.request_id with
  | none => simp [pyTruthy]
  | some rid =>
    by_cases he : rid = ""
    · simp [pyTruthy, he]
    · simp [pyTruthy, he, h rid hr]

/-- `findToolCall` with a present id is `find?` over `toolCallHasId`. -/
theorem findToolCall_eq_find (calls : List Ev) (t : String) :
    findToolCall calls (some t) = calls.find? (fun e => toolCallHasId t e) := by
  induction calls with
  | nil => rfl
  | cons e rest ih =>
    cases e with
    | toolCall i n a =>
      cases h : (i == t) with
      | true => simp [findToolCall, List.find?, toolCallHasId, h]
      | false =>
        simpa [findToolCall, List.find?, toolCallHasId, h] using ih
    | completion c =>
      simpa [findToolCall, List.find?, toolCallHasId] using ih
    | thinking c =>
      simpa [findToolCall, List.find?, toolCallHasId] using ih
    | done => simpa [findToolCall, List.find?, toolCallHasId] using ih
    | error m => simpa [findToolCall, List.find?, toolCallHasId] using ih

/-- No event of `calls` carries id `t` → the search fails. -/
theorem findToolCall_none (calls : List Ev) (t : String)
    (h : calls.all (fun e => !(toolCallHasId t e)) = true) :
    findToolCall calls (some t) = none := by
  rw [findToolCall_eq_find]
  rw [List.find?_eq_none]
  intro x hx
  have := List.all_eq_true.mp h x hx
  simp at this
  simp [this]

/-- `all` is preserved by `filter`. -/
theorem all_filter_of_all (l : List Ev) (p q : Ev → Bool)
    (h : l.all q = true) : (l.filter p).all q = true := by
  rw [List.all_eq_true] at h ⊢
  intro x hx
  exact h x (List.mem_of_mem_filter hx)

/-- The transport loop distributes over concatenation of the input lines,
threading the store. -/
theorem mainLoopSt_append (env : Env) (xs ys : List InLine) : ∀ store : Store,
    mainLoopSt env store (xs ++ ys)
      = ((mainLoopSt env store xs).1
          ++ (mainLoopSt env (mainLoopSt env store xs).2 ys).1,
         (mainLoopSt env (mainLoopSt env store xs).2 ys).2) := by
  induction xs with
  | nil => intro store; simp [mainLoopSt]
  | cons l rest ih =>
    intro store
    cases l with
    | invalidJson d => simp [mainLoopSt, ih]
    | request r o => simp [mainLoopSt, ih]

/-! ## Claims -/

/-- C1: the claim (and the comment inside `Config.from_dict` itself) says
the provider's environment variable overrides a request-body `api_key`.
The code does the opposite: with `ANTHROPIC_API_KEY=sk-X` set and a body
config supplying `body-key`, `Config.from_dict` resolves to `body-key`,
and the complete-request path (which constructs the dataclass directly
from the body) also stores `body-key` and never consults the
environment. -/
theorem C1_body_api_key_wins_over_env :
    envSkX "ANTHROPIC_API_KEY" = some "sk-X"
    ∧ Config.from_dict envSkX cdBodyKey
        = .ok ⟨"anthropic", "claude-sonnet-4.5", "body-key", none, 30, 3⟩
    ∧ (storeFind "r1"
        (handle_complete_request envSkX reqBodyKey [Ev.done] none "g" []).2).map
          (fun conv => conv.config.api_key) = some "body-key" :=
  ⟨rfl, rfl, rfl⟩

/-- C2 counterexample: a complete request whose stream emits only
`completion` and `done` still leaves a Conversation in the store — the
entry is created unconditionally before the streaming loop, refuting the
claimed if-and-only-if. -/
theorem C2_counterexample_entry_without_toolCall :
    (storeFind "g"
      (handle_complete_request envNone reqOpenai
        [Ev.completion "return 1", Ev.done] none "g" []).2).isSome = true := rfl

/-- C2 (amended): after handling any complete request whose config
resolves and whose provider is known, a Conversation entry exists in the
store under the request's key regardless of whether the stream emitted
any `ToolCall`; its pending list holds exactly the stream's tool_call
events and its accumulated text exactly the completion contents.  Entries
are only ever removed by the tool-response path. -/
theorem C2_conversation_always_stored (env : Env) (req : CompleteReq)
    (evs : List Ev) (sr : Option String) (gk : String) (store : Store)
    (cfg : Config) (hcfg : resolveRequestConfig env req = .ok cfg)
    (hkp : knownProvider cfg) :
    ∃ conv : Conversation,
      storeFind (req.request_id.getD gk)
          (handle_complete_request env req evs sr gk store).2 = some conv
      ∧ conv.tool_calls = evs.filter isToolCallEv
      ∧ conv.completion_parts = evs.filterMap complContent := by
  rw [handle_complete_ok env req evs sr gk store cfg hcfg hkp]
  refine ⟨evs.foldl convStep (initConv cfg req), ?_, ?_, ?_⟩
  · exact foldStream_find_self _ evs _ _ (storeFind_insert_self store _ _)
  · simpa [initConv] using (foldl_convStep_spec evs (initConv cfg req)).1
  · simpa [initConv] using (foldl_convStep_spec evs (initConv cfg req)).2.1

/-- C2 witness: the amended theorem at a concrete completion-only
stream. -/
theorem C2_conversation_always_stored_witness :
    ∃ conv : Conversation,
      storeFind "g"
          (handle_complete_request envNone reqOpenai
            [Ev.completion "return 1", Ev.done] none "g" []).2 = some conv
      ∧ conv.tool_calls = []
      ∧ conv.completion_parts = ["return 1"] :=
  C2_conversation_always_stored envNone reqOpenai
    [Ev.completion "return 1", Ev.done] none "g" [] cfgOpenai rfl
    (Or.inr (Or.inl rfl))

/-- C3 counterexample: a `tool_response` that names a stored conversation
but a wrong `tool_call_id` returns early with the not-found error and
leaves the Conversation in the store, refuting "absent regardless of
outcome". -/
theorem C3_counterexample_entry_kept :
    handle_tool_response storePending ⟨some "r1", some "t2", none⟩
        (ContResult.success [])
      = ([Ev.error "Tool call t2 not found"], storePending, none)
    ∧ (storeFind "r1" storePending).isSome = true :=
  ⟨rfl, rfl⟩

/-- C3 (amended): once a `tool_response` matches a stored Conversation,
the entry is removed only when the named pending tool call is found AND
the continuation stream terminates cleanly; when the tool call is not
found the handler returns early and the store is unchanged, and when the
continuation raises the cleanup is skipped and the store is unchanged. -/
theorem C3_cleanup_only_on_success (store : Store) (req : ToolResponseReq)
    (rid : String) (conv : Conversation)
    (hrid : pyTruthy req.request_id = some rid)
    (hfound : storeFind rid store = some conv) :
    (∀ tc, findToolCall conv.tool_calls req.tool_call_id = some tc →
      ∀ cs, storeFind rid
          (handle_tool_response store req (ContResult.success cs)).2.1 = none)
    ∧ (findToolCall conv.tool_calls req.tool_call_id = none →
      ∀ cont, handle_tool_response store req cont
        = ([Ev.error ("Tool call " ++ pyStrOpt req.tool_call_id ++ " not found")],
           store, none))
    ∧ (∀ tc, findToolCall conv.tool_calls req.tool_call_id = some tc →
      ∀ cs msg, handle_tool_response store req (ContResult.failure cs msg)
        = (cs.map Ev.completion, store, some msg)) := by
  refine ⟨?_, ?_, ?_⟩
  · intro tc htc cs
    unfold handle_tool_response
    rw [hrid]
    dsimp only
    rw [hfound]
    dsimp only
    rw [htc]
    exact storeFind_cleanup_self store rid
  · intro hnone cont
    unfold handle_tool_response
    rw [hrid]
    dsimp only
    rw [hfound]
    dsimp only
    rw [hnone]
  · intro tc htc cs msg
    unfold handle_tool_response
    rw [hrid]
    dsimp only
    rw [hfound]
    dsimp only
    rw [htc]

/-- C3 witness: the amended theorem on the concrete pending store. -/
theorem C3_cleanup_only_on_success_witness :
    (∀ tc, findToolCall convPending.tool_calls (some "t1") = some tc →
      ∀ cs, storeFind "r1"
          (handle_tool_response storePending ⟨some "r1", some "t1", none⟩
            (ContResult.success cs)).2.1 = none)
    ∧ (findToolCall convPending.tool_calls (some "t1") = none →
      ∀ cont, handle_tool_response storePending ⟨some "r1", some "t1", none⟩ cont
        = ([Ev.error "Tool call t1 not found"], storePending, none))
    ∧ (∀ tc, findToolCall convPending.tool_calls (some "t1") = some tc →
      ∀ cs msg, handle_tool_response storePending ⟨some "r1", some "t1", none⟩
          (ContResult.failure cs msg)
        = (cs.map Ev.completion, storePending, some msg)) :=
  C3_cleanup_only_on_success storePending ⟨some "r1", some "t1", none⟩ "r1"
    convPending rfl rfl

/-- C4: the claim says a body-supplied config is resolved field-by-field
with body → environment → default precedence (so `{"provider":"local"}`
succeeds with key `"none"`).  The code's `handle_complete_request` instead
passes the body dict straight to the dataclass constructor, so the
request fails with a `TypeError` — while `Config.from_dict`, written for
exactly these dicts, performs the claimed resolution. -/
theorem C4_body_config_bypasses_resolution :
    handle_complete_request envNone reqLocalOnly [Ev.done] none "g" []
      = ([Ev.error "Config.__init__() missing required positional arguments"], [])
    ∧ Config.from_dict envNone cdLocalOnly
      = .ok ⟨"local", "deepseek-coder:6.7b", "none",
             some "http://localhost:11434/v1", 30, 3⟩ :=
  ⟨rfl, rfl⟩

/-- C5: a `tool_response` whose `request_id` matches no stored
Conversation yields exactly one event — the invalid-id error — and
leaves the store untouched. -/
theorem C5_unknown_request_id_single_error (store : Store)
    (req : ToolResponseReq) (cont : ContResult)
    (h : ∀ rid, req.request_id = some rid → storeFind rid store = none) :
    handle_tool_response store req cont
      = ([Ev.error "Invalid or expired request_id"], store, none) :=
  tool_response_unknown store req cont h

/-- C5 witness: concrete unknown id on the empty store. -/
theorem C5_unknown_request_id_single_error_witness :
    handle_tool_response [] ⟨some "x", some "t", none⟩ (ContResult.success [])
      = ([Ev.error "Invalid or expired request_id"], [], none) :=
  C5_unknown_request_id_single_error [] ⟨some "x", some "t", none⟩
    (ContResult.success []) (fun rid hr => by cases hr; rfl)

/-- C6: in both adapters a completed tool call produces exactly one
`tool_call` event and no error: its `args` is the decode of the
concatenated fragments when they parse, and the empty object when they
do not (the stream still ends in `done`). -/
theorem C6_tool_call_args_roundtrip (loads : String → Option Args)
    (i n : String) (frags : List String) (hi : i ≠ "") (hn : n ≠ "") :
    AnthropicClient.stream_completion loads
        (AEvent.blockStart (some (i, n))
          :: frags.map (fun f => AEvent.blockDelta (ADelta.jsonDelta (some f)))
          ++ [AEvent.blockStop])
      = [Ev.toolCall i n (decodePyLoads loads (strConcat frags)), Ev.done]
    ∧ OpenAIClient.stream_completion loads
        (oToolChunk (some i) (some n) none
          :: frags.map (fun f => oToolChunk none none (some f)) ++ [oFinishChunk])
      = [Ev.toolCall i n (decodePyLoads loads (strConcat frags)), Ev.done]
    ∧ (∀ v, strConcat frags ≠ "" → loads (strConcat frags) = some v →
        decodePyLoads loads (strConcat frags) = v)
    ∧ (loads (strConcat frags) = none →
        decodePyLoads loads (strConcat frags) = Args.empty) := by
  refine ⟨anthropic_tool_block loads i n frags,
          openai_tool_stream loads i n frags hi hn, ?_, ?_⟩
  · intro v hne hl
    simp [decodePyLoads, hne, hl]
  · intro hl
    unfold decodePyLoads
    split
    · rfl
    · simp [hl, Args.empty]

/-- C6 witness: concrete two-fragment call, with a decoder accepting
exactly their concatenation. -/
theorem C6_tool_call_args_roundtrip_witness :
    AnthropicClient.stream_completion loadsAB
        (AEvent.blockStart (some ("t1", "get_implementation"))
          :: ["a", "b"].map (fun f => AEvent.blockDelta (ADelta.jsonDelta (some f)))
          ++ [AEvent.blockStop])
      = [Ev.toolCall "t1" "get_implementation"
          (decodePyLoads loadsAB (strConcat ["a", "b"])), Ev.done]
    ∧ OpenAIClient.stream_completion loadsAB
        (oToolChunk (some "t1") (some "get_implementation") none
          :: ["a", "b"].map (fun f => oToolChunk none none (some f))
          ++ [oFinishChunk])
      = [Ev.toolCall "t1" "get_implementation"
          (decodePyLoads loadsAB (strConcat ["a", "b"])), Ev.done]
    ∧ (∀ v, strConcat ["a", "b"] ≠ "" → loadsAB (strConcat ["a", "b"]) = some v →
        decodePyLoads loadsAB (strConcat ["a", "b"]) = v)
    ∧ (loadsAB (strConcat ["a", "b"]) = none →
        decodePyLoads loadsAB (strConcat ["a", "b"]) = Args.empty) :=
  C6_tool_call_args_roundtrip loadsAB "t1" "get_implementation" ["a", "b"]
    (by decide) (by decide)

/-- C7: both adapters end every stream with exactly one `done`, preceded
only by payload (`completion` / `thinking` / `tool_call`) events in
arrival order — never an error or a second `done`. -/
theorem C7_stream_ends_with_single_done (loads : String → Option Args) :
    (∀ events : List AEvent,
      (AnthropicClient.stream_completion loads events).getLast? = some Ev.done
      ∧ (AnthropicClient.stream_completion loads events).count Ev.done = 1
      ∧ ((AnthropicClient.stream_completion loads events).dropLast).all isPayload
          = true)
    ∧ (∀ chunks : List OChunk,
      (OpenAIClient.stream_completion loads chunks).getLast? = some Ev.done
      ∧ (OpenAIClient.stream_completion loads chunks).count Ev.done = 1
      ∧ ((OpenAIClient.stream_completion loads chunks).dropLast).all isPayload
          = true) := by
  constructor
  · intro events
    unfold AnthropicClient.stream_completion
    refine ⟨List.getLast?_concat _, ?_, ?_⟩
    · rw [List.count_append,
        count_done_eq_zero_of_payload _ (aRun_all_payload loads events _)]
      rfl
    · rw [List.dropLast_concat]
      exact aRun_all_payload loads events _
  · intro chunks
    unfold OpenAIClient.stream_completion
    refine ⟨List.getLast?_concat _, ?_, ?_⟩
    · rw [List.count_append,
        count_done_eq_zero_of_payload _ (oRun_all_payload loads chunks _)]
      rfl
    · rw [List.dropLast_concat]
      exact oRun_all_payload loads chunks _

/-- C8: a line that fails JSON parsing contributes exactly one
`"Invalid JSON: <detail>"` error event to the output, the store is
untouched by it, and the loop processes the following lines exactly as it
would have without the bad line. -/
theorem C8_invalid_json_single_error_continue (env : Env) (store : Store)
    (pre : List InLine) (d : String) (post : List InLine) :
    mainLoopSt env store (pre ++ InLine.invalidJson d :: post)
      = ((mainLoopSt env store pre).1
          ++ Ev.error ("Invalid JSON: " ++ d)
            :: (mainLoopSt env (mainLoopSt env store pre).2 post).1,
         (mainLoopSt env (mainLoopSt env store pre).2 post).2) := by
  rw [mainLoopSt_append]
  simp [mainLoopSt]

/-- C9: a complete request whose `request_id` is already a stored key
replaces that entry with a fresh conversation built from the new stream,
leaves every other key untouched, and the replaced conversation's pending
tool calls — any id absent from the new stream — can no longer be
resumed. -/
theorem C9_replaces_existing_conversation (env : Env) (store : Store)
    (rid : String) (oldConv : Conversation) (req : CompleteReq) (evs : List Ev)
    (sr : Option String) (gk : String) (cfg : Config)
    (hrid : req.request_id = some rid)
    (hold : storeFind rid store = some oldConv)
    (hcfg : resolveRequestConfig env req = .ok cfg) (hkp : knownProvider cfg) :
    (∃ conv, storeFind rid (handle_complete_request env req evs sr gk store).2
        = some conv
      ∧ conv.tool_calls = evs.filter isToolCallEv
      ∧ conv.completion_parts = evs.filterMap complContent)
    ∧ (∀ k, k ≠ rid →
        storeFind k (handle_complete_request env req evs sr gk store).2
          = storeFind k store)
    ∧ (rid ≠ "" → ∀ t cont,
        evs.all (fun e => !(toolCallHasId t e)) = true →
        (handle_tool_response (handle_complete_request env req evs sr gk store).2
            ⟨some rid, some t, none⟩ cont).1
          = [Ev.error ("Tool call " ++ t ++ " not found")]) := by
  rw [handle_complete_ok env req evs sr gk store cfg hcfg hkp]
  have hkey : req.request_id.getD gk = rid := by rw [hrid]; rfl
  rw [hkey]
  have hself :
      storeFind rid
          (evs.foldl (fun s e => applyStreamEvent s rid e)
            (storeInsert store rid (initConv cfg req)))
        = some (evs.foldl convStep (initConv cfg req)) :=
    foldStream_find_self _ evs _ _ (storeFind_insert_self store _ _)
  refine ⟨⟨evs.foldl convStep (initConv cfg req), hself, ?_, ?_⟩, ?_, ?_⟩
  · simpa [initConv] using (foldl_convStep_spec evs (initConv cfg req)).1
  · simpa [initConv] using (foldl_convStep_spec evs (initConv cfg req)).2.1
  · intro k hk
    rw [foldStream_find_ne _ _ evs hk, storeFind_insert_ne _ _ _ _ hk]
  · intro hre t cont hall
    unfold handle_tool_response
    have h1 : pyTruthy (some rid) = some rid := by simp [pyTruthy, hre]
    rw [h1]
    dsimp only
    rw [hself]
    dsimp only
    have h3 : findToolCall (evs.foldl convStep (initConv cfg req)).tool_calls
        (some t) = none := by
      apply findToolCall_none
      rw [(foldl_convStep_spec evs (initConv cfg req)).1]
      have : (initConv cfg req).tool_calls = [] := rfl
      rw [this, List.nil_append]
      exact all_filter_of_all evs _ _ hall
    rw [h3]
    rfl

/-- C9 witness: replacing the stored conversation `r1` (pending tool call
`t1`) by a new one (pending `t2`); `t1` is no longer resumable. -/
theorem C9_replaces_existing_conversation_witness :
    (∃ conv, storeFind "r1"
        (handle_complete_request envNone reqReplace
          [Ev.toolCall "t2" "get_implementation" Args.empty, Ev.done]
          none "g" storePending).2 = some conv
      ∧ conv.tool_calls = [Ev.toolCall "t2" "get_implementation" Args.empty]
      ∧ conv.completion_parts = [])
    ∧ (∀ k, k ≠ "r1" →
        storeFind k
            (handle_complete_request envNone reqReplace
              [Ev.toolCall "t2" "get_implementation" Args.empty, Ev.done]
              none "g" storePending).2
          = storeFind k storePending)
    ∧ ("r1" ≠ "" → ∀ t cont,
        [Ev.toolCall "t2" "get_implementation" Args.empty, Ev.done].all
            (fun e => !(toolCallHasId t e)) = true →
        (handle_tool_response
            (handle_complete_request envNone reqReplace
              [Ev.toolCall "t2" "get_implementation" Args.empty, Ev.done]
              none "g" storePending).2
            ⟨some "r1", some t, none⟩ cont).1
          = [Ev.error ("Tool call " ++ t ++ " not found")]) :=
  C9_replaces_existing_conversation envNone storePending "r1" convPending
    reqReplace [Ev.toolCall "t2" "get_implementation" Args.empty, Ev.done]
    none "g" cfgOpenai rfl rfl rfl (Or.inr (Or.inl rfl))

/-- C10: when a complete request omits `request_id`, the handler forwards
the provider events unchanged (so the internally generated key appears in
no emitted event unless the provider itself produced that string), and a
`tool_response` naming any other id — all a caller can know — fails with
the invalid-id error and no state change. -/
theorem C10_generated_key_internal (env : Env) (store : Store)
    (req : CompleteReq) (evs : List Ev) (sr : Option String) (gk : String)
    (cfg : Config) (hrid : req.request_id = none)
    (hcfg : resolveRequestConfig env req = .ok cfg) (hkp : knownProvider cfg) :
    (handle_complete_request env req evs sr gk store).1
        = evs ++ (match sr with | some m => [Ev.error m] | none => [])
    ∧ (evs.all (fun e => !(evMentions gk e)) = true →
       (∀ m, sr = some m → (m == gk) = false) →
       (handle_complete_request env req evs sr gk store).1.all
         (fun e => !(evMentions gk e)) = true)
    ∧ (∀ rid tcid c cont, rid ≠ gk → storeFind rid store = none →
        handle_tool_response (handle_complete_request env req evs sr gk store).2
            ⟨some rid, tcid, c⟩ cont
          = ([Ev.error "Invalid or expired request_id"],
             (handle_complete_request env req evs sr gk store).2, none)) := by
  rw [handle_complete_ok env req evs sr gk store cfg hcfg hkp]
  have hkey : req.request_id.getD gk = gk := by rw [hrid]; rfl
  rw [hkey]
  refine ⟨rfl, ?_, ?_⟩
  · intro h1 h2
    rw [List.all_append, Bool.and_eq_true]
    refine ⟨h1, ?_⟩
    cases sr with
    | none => rfl
    | some m => simp [evMentions, h2 m rfl]
  · intro rid tcid c cont hne hnone
    apply tool_response_unknown
    intro rid' hr'
    cases hr'
    rw [foldStream_find_ne _ _ evs hne, storeFind_insert_ne _ _ _ _ hne]
    exact hnone

/-- C10 witness: concrete key `gen` on the empty store. -/
theorem C10_generated_key_internal_witness :
    (handle_complete_request envNone reqOpenai [Ev.completion "x", Ev.done]
        none "gen" []).1
      = [Ev.completion "x", Ev.done]
    ∧ ([Ev.completion "x", Ev.done].all (fun e => !(evMentions "gen" e)) = true →
       (∀ m, (none : Option String) = some m → (m == "gen") = false) →
       (handle_complete_request envNone reqOpenai [Ev.completion "x", Ev.done]
          none "gen" []).1.all (fun e => !(evMentions "gen" e)) = true)
    ∧ (∀ rid tcid c cont, rid ≠ "gen" → storeFind rid [] = none →
        handle_tool_response
            (handle_complete_request envNone reqOpenai
              [Ev.completion "x", Ev.done] none "gen" []).2
            ⟨some rid, tcid, c⟩ cont
          = ([Ev.error "Invalid or expired request_id"],
             (handle_complete_request envNone reqOpenai
               [Ev.completion "x", Ev.done] none "gen" []).2, none)) :=
  C10_generated_key_internal envNone [] reqOpenai [Ev.completion "x", Ev.done]
    none "gen" cfgOpenai rfl rfl (Or.inr (Or.inl rfl))

end NvimLlm
